import Mathlib

/-
Shallow embedding of the Event Sourcing / CQRS subsystem of the repository:
  - EventStore        (src/unnamed/part_012, class EventStore)
  - SnapshotManager   (src/event-driven-architecture/event-sourcing-CQRS/SnapshotManager.js)
  - BankAccount       (src/event-driven-architecture/event-sourcing-CQRS/BankAccount.js)
  - ReadModelDB       (src/event-driven-architecture/event-sourcing-CQRS/ReadModelDB.js)

Modelling choices (mirroring the JavaScript semantics):
  - JavaScript `Map`s are modelled as association lists with `alGet` / `alSet` /
    `alHas` (first-match lookup, in-place overwrite on set).
  - Aggregate state objects are mutable in JavaScript and are shared by
    reference between the live aggregate and the snapshot store, so they are
    modelled through an explicit heap: `AccountState` values live in numbered
    cells (`Ref`), `Heap.write` is in-place field mutation, and `Heap.alloc`
    is object creation (`{...}` literals and `structuredClone`).
  - Event objects and their `data` payloads are never mutated after creation
    by any code path, so they are modelled as plain values.
  - Thrown JavaScript errors are modelled with `Except String`; operations
    that have already mutated state before throwing return the mutated state
    alongside the error, exactly as the mutation persists past a JS `throw`.
  - `Date.now()` is modelled by a counter threaded through the system state;
    no specified property depends on timestamps.
-/

/-- Association-list lookup, modelling JavaScript `Map.prototype.get`
(`undefined` becomes `none`). -/
def alGet {α : Type} : List (String × α) → String → Option α
  | [], _ => none
  | (k', v) :: rest, k => if k' = k then some v else alGet rest k

/-- Modelling JavaScript `Map.prototype.has`. -/
def alHas {α : Type} (m : List (String × α)) (k : String) : Bool :=
  (alGet m k).isSome

/-- Association-list update, modelling JavaScript `Map.prototype.set`. -/
def alSet {α : Type} : List (String × α) → String → α → List (String × α)
  | [], k, v => [(k, v)]
  | (k', v') :: rest, k, v =>
      if k' = k then (k, v) :: rest else (k', v') :: alSet rest k v

/-- Event payload. The commands build `{ initialAmount: amount }` or
`{ amount }`; an absent field is `none` (JavaScript `undefined`). -/
structure Payload where
  initialAmount : Option Int := none
  amount : Option Int := none
deriving Repr, DecidableEq

/-- An event record as built by `EventStore.save`:
`{ streamId, type: eventType, data, seqNum: nextSeq, timestamp: Date.now() }`. -/
structure Event where
  streamId : String
  type : String
  data : Payload
  seqNum : Nat
  timestamp : Nat
deriving Repr, DecidableEq

/-- The bank-account aggregate state object `{ balance, status }`. -/
structure AccountState where
  balance : Int
  status : String
deriving Repr, DecidableEq

/-- Heap cell identifiers for mutable `AccountState` objects. -/
abbrev Ref := Nat

/-- A heap of mutable `AccountState` objects: `next` is the next fresh cell.
Cells that were never allocated are never read by any modelled code path;
they carry an arbitrary default. -/
structure Heap where
  next : Ref
  mem : Ref → AccountState

/-- Reading a field of a state object through its reference. -/
def Heap.read (h : Heap) (r : Ref) : AccountState := h.mem r

/-- In-place mutation of the state object behind `r` (JavaScript
`obj.field = ...` / `obj.field += ...`). -/
def Heap.write (h : Heap) (r : Ref) (s : AccountState) : Heap :=
  { h with mem := fun r' => if r' = r then s else h.mem r' }

/-- Creation of a fresh state object (object literal or `structuredClone`):
returns a reference that aliases nothing allocated before. -/
def Heap.alloc (h : Heap) (s : AccountState) : Ref × Heap :=
  (h.next,
   { next := h.next + 1, mem := fun r' => if r' = h.next then s else h.mem r' })

/-- `EventStore.streams`: `Map<streamId, Event[]>`. -/
abbrev StreamMap := List (String × List Event)

/-- The options object of `EventStore.getStream`; `direction` defaults to
`"forwards"` when the caller omits it, the other fields to `undefined`. -/
structure GetStreamOptions where
  startingFromSeqNum : Option Nat := none
  direction : String := "forwards"
  maxCount : Option Nat := none
deriving Repr, DecidableEq

namespace EventStore

/-- The stored event list of a stream: `this.streams.get(streamId) || []`. -/
def streamEvents (store : StreamMap) (streamId : String) : List Event :=
  (alGet store streamId).getD []

/-- `EventStore.getStream(streamId, options)`: `forwards` filters
`seqNum >= startingFromSeqNum` (everything when undefined); otherwise the
reversed list is filtered by `seqNum <= startingFromSeqNum`; `maxCount`
slices the first elements. -/
def getStream (store : StreamMap) (streamId : String)
    (options : GetStreamOptions) : List Event :=
  let allEvents := streamEvents store streamId
  let result :=
    if options.direction = "forwards" then
      match options.startingFromSeqNum with
      | some n => allEvents.filter (fun e => n ≤ e.seqNum)
      | none => allEvents
    else
      let reversed := allEvents.reverse
      match options.startingFromSeqNum with
      | some n => reversed.filter (fun e => e.seqNum ≤ n)
      | none => reversed
  match options.maxCount with
  | some c => result.take c
  | none => result

/-- The error message thrown on an optimistic-concurrency violation. -/
def concurrencyConflictMsg (streamId : String)
    (expectedSeq foundVersion : Nat) : String :=
  s!"Concurrency Conflict for {streamId}: Expected version {expectedSeq}, but found {foundVersion}."

/-- The first step of `save`:
`if (!this.streams.has(streamId)) this.streams.set(streamId, [])`. -/
def ensureStream (store : StreamMap) (streamId : String) : StreamMap :=
  if alHas store streamId then store else alSet store streamId []

/-- The current version of a stream as `save` computes it: fetch the last
event via `getStream(..., backwards, maxCount 1)`; its `seqNum`, or `0` when
the stream has no events. -/
def currentVersion (store : StreamMap) (streamId : String) : Nat :=
  match getStream store streamId
      { direction := "backwards", maxCount := some 1 } with
  | e :: _ => e.seqNum
  | [] => 0

/-- `EventStore.save(streamId, eventType, data, expectedSeq)`.
Ensures the stream's array exists, computes `currentVersion`, throws a
concurrency conflict when `expectedSeq` is defined and differs, otherwise
appends the new event with `seqNum = currentVersion + 1`.
The returned `StreamMap` is the store after the call, also on the throwing
path (the `streams.set(streamId, [])` performed before the version check
persists past the throw). -/
def save (store : StreamMap) (streamId eventType : String) (data : Payload)
    (expectedSeq : Option Nat) (now : Nat) :
    Except String Event × StreamMap :=
  let store1 := ensureStream store streamId
  let version := currentVersion store1 streamId
  if (match expectedSeq with
      | some exp => version != exp
      | none => false) then
    (.error (concurrencyConflictMsg streamId (expectedSeq.getD 0) version),
     store1)
  else
    let nextSeq := version + 1
    let newEvent : Event :=
      { streamId := streamId, type := eventType, data := data,
        seqNum := nextSeq, timestamp := now }
    (.ok newEvent,
     alSet store1 streamId ((alGet store1 streamId).getD [] ++ [newEvent]))

end EventStore

/-- A stored snapshot `{ state, lastSeqNum, timestamp }`; `state` is the
reference to the state object held inside the snapshot store. -/
structure Snapshot where
  stateRef : Ref
  lastSeqNum : Nat
  timestamp : Nat
deriving Repr, DecidableEq

/-- `SnapshotManager.snapshots`: `Map<streamId, Snapshot>`. -/
abbrev SnapMap := List (String × Snapshot)

namespace SnapshotManager

/-- `getSnapshot(streamId)`: `this.snapshots.get(streamId) || null`. -/
def getSnapshot (snapshots : SnapMap) (streamId : String) : Option Snapshot :=
  alGet snapshots streamId

/-- `saveSnapshot(streamId, state, lastSeqNum)`:
`structuredClone(state)` allocates a fresh object holding the current value
of the passed state object; the snapshot stores a reference to that copy. -/
def saveSnapshot (heap : Heap) (snapshots : SnapMap) (streamId : String)
    (stateRef : Ref) (lastSeqNum now : Nat) : Heap × SnapMap :=
  let (copyRef, heap') := heap.alloc (heap.read stateRef)
  (heap',
   alSet snapshots streamId
     { stateRef := copyRef, lastSeqNum := lastSeqNum, timestamp := now })

end SnapshotManager

/-- `ReadModelDB.db` record `{ id, balance, status, lastProcessedSeq }`. -/
structure AccountRecord where
  id : String
  balance : Int
  status : String
  lastProcessedSeq : Nat
deriving Repr, DecidableEq

/-- `ReadModelDB.db`: `Map<id, AccountRecord>`. -/
abbrev ReadModelMap := List (String × AccountRecord)

namespace ReadModelDB

/-- `getAccount(id)`: `this.db.get(id) || null`. -/
def getAccount (db : ReadModelMap) (id : String) : Option AccountRecord :=
  alGet db id

/-- The default record initialized when `id` has no row yet. -/
def defaultRecord (id : String) : AccountRecord :=
  { id := id, balance := 0, status := "Closed", lastProcessedSeq := 0 }

/-- `applyUpdate(id, eventType, data, seqNum)`: loads or default-initializes
the record; returns unchanged when `seqNum <= record.lastProcessedSeq`
(idempotency guard); otherwise projects the event (the `switch` with no
default clause), sets `lastProcessedSeq = seqNum` and stores the record. -/
def applyUpdate (db : ReadModelMap) (id eventType : String) (data : Payload)
    (seqNum : Nat) : ReadModelMap :=
  let record := (alGet db id).getD (defaultRecord id)
  if seqNum ≤ record.lastProcessedSeq then db
  else
    let record :=
      match eventType with
      | "AccountOpened" =>
          { record with status := "Active",
                        balance := data.initialAmount.getD 0 }
      | "MoneyDeposited" =>
          { record with balance := record.balance + data.amount.getD 0 }
      | "MoneyWithdrawn" =>
          { record with balance := record.balance - data.amount.getD 0 }
      | _ => record
    let record := { record with lastProcessedSeq := seqNum }
    alSet db id record

/-- The `lastProcessedSeq` the idempotency guard compares against:
that of the stored record, or `0` for an absent record. -/
def recordSeq (db : ReadModelMap) (id : String) : Nat :=
  ((alGet db id).getD (defaultRecord id)).lastProcessedSeq

end ReadModelDB

/-- The mutable system state shared by the write-side components:
the heap of state objects, the event store, the snapshot store, the events
handed to `eventPublisher.publish`, and the clock. `snapLog` is ghost
instrumentation recording each `saveSnapshot` invocation as
`(streamId, lastSeqNum)`; it influences nothing. -/
structure Sys where
  heap : Heap
  store : StreamMap
  snapshots : SnapMap
  published : List Event
  snapLog : List (String × Nat)
  time : Nat

/-- The empty initial system: no streams, no snapshots, nothing published. -/
def Sys.init : Sys :=
  { heap := { next := 0, mem := fun _ => { balance := 0, status := "Closed" } },
    store := [], snapshots := [], published := [], snapLog := [], time := 0 }

/-- A `BankAccount` instance: `{ streamId, state, lastSeq }`; `state` is a
reference into the heap. -/
structure BankAccount where
  streamId : String
  stateRef : Ref
  lastSeq : Nat
deriving Repr, DecidableEq

namespace BankAccount

/-- `new BankAccount(streamId)`: allocates a fresh state object
`{ balance: 0, status: "Closed" }` and sets `lastSeq = 0`. -/
def new (sys : Sys) (streamId : String) : BankAccount × Sys :=
  let (r, heap') := sys.heap.alloc { balance := 0, status := "Closed" }
  ({ streamId := streamId, stateRef := r, lastSeq := 0 },
   { sys with heap := heap' })

/-- The pure state transition of `applyEventToState`: the `switch` over
`event.type` (no default clause — unknown types leave the state unchanged). -/
def applyPure (s : AccountState) (event : Event) : AccountState :=
  match event.type with
  | "AccountOpened" =>
      { s with status := "Active", balance := event.data.initialAmount.getD 0 }
  | "MoneyDeposited" =>
      { s with balance := s.balance + event.data.amount.getD 0 }
  | "MoneyWithdrawn" =>
      { s with balance := s.balance - event.data.amount.getD 0 }
  | _ => s

/-- `applyEventToState(event)`: mutates `this.state` in place through its
reference. -/
def applyEventToState (heap : Heap) (acct : BankAccount) (event : Event) :
    Heap :=
  heap.write acct.stateRef (applyPure (heap.read acct.stateRef) event)

/-- `load()`. Snapshot hit: `this.state = snapshot.state` makes the live
aggregate's state reference THE stored snapshot's state object (no copy);
the delta events (`seqNum >= snapshot.lastSeqNum + 1`, forwards) are then
folded in by in-place mutation; `lastSeq` is the last delta event's `seqNum`,
or the snapshot's `lastSeqNum` when there is no delta. Miss: full forward
replay into the constructor-allocated state object; `lastSeq` is the last
event's `seqNum`, or `0`. -/
def load (sys : Sys) (acct : BankAccount) : BankAccount × Sys :=
  match SnapshotManager.getSnapshot sys.snapshots acct.streamId with
  | some snapshot =>
      let acct := { acct with stateRef := snapshot.stateRef }
      let eventsToApply := EventStore.getStream sys.store acct.streamId
        { startingFromSeqNum := some (snapshot.lastSeqNum + 1),
          direction := "forwards" }
      let acct :=
        { acct with lastSeq :=
            match eventsToApply.getLast? with
            | some e => e.seqNum
            | none => snapshot.lastSeqNum }
      let heap := eventsToApply.foldl
        (fun h e => applyEventToState h acct e) sys.heap
      (acct, { sys with heap := heap })
  | none =>
      let eventsToApply := EventStore.getStream sys.store acct.streamId
        { direction := "forwards" }
      let acct :=
        { acct with lastSeq :=
            match eventsToApply.getLast? with
            | some e => e.seqNum
            | none => 0 }
      let heap := eventsToApply.foldl
        (fun h e => applyEventToState h acct e) sys.heap
      (acct, { sys with heap := heap })

/-- `updateSnapshot()`: saves a snapshot exactly when
`lastSeq > 0 && lastSeq % SNAPSHOT_THRESHOLD === 0`; the threshold
(`config.SNAPSHOT_THRESHOLD`) is passed explicitly. -/
def updateSnapshot (threshold : Nat) (sys : Sys) (acct : BankAccount) : Sys :=
  if 0 < acct.lastSeq ∧ acct.lastSeq % threshold = 0 then
    let (heap', snapshots') := SnapshotManager.saveSnapshot sys.heap
      sys.snapshots acct.streamId acct.stateRef acct.lastSeq sys.time
    { sys with heap := heap', snapshots := snapshots',
               snapLog := sys.snapLog ++ [(acct.streamId, acct.lastSeq)] }
  else sys

/-- The shared tail of every command after a successful append:
apply the event locally, advance `lastSeq`, publish, maybe snapshot. -/
def commandTail (threshold : Nat) (sys : Sys) (acct : BankAccount)
    (event : Event) : Except String Unit × BankAccount × Sys :=
  let heap := applyEventToState sys.heap acct event
  let acct := { acct with lastSeq := event.seqNum }
  let sys := { sys with heap := heap, published := sys.published ++ [event],
                        time := sys.time + 1 }
  (.ok (), acct, updateSnapshot threshold sys acct)

/-- `openAccount(amount)`: validate (`status === "Active"` throws
"Already active"), then `eventStore.save(streamId, "AccountOpened",
{initialAmount: amount}, lastSeq)`, then apply/publish/snapshot. -/
def openAccount (threshold : Nat) (sys : Sys) (acct : BankAccount)
    (amount : Int) : Except String Unit × BankAccount × Sys :=
  if (sys.heap.read acct.stateRef).status = "Active" then
    (.error "Already active", acct, sys)
  else
    let (res, store') := EventStore.save sys.store acct.streamId
      "AccountOpened" { initialAmount := some amount } (some acct.lastSeq)
      sys.time
    let sys := { sys with store := store' }
    match res with
    | .error msg => (.error msg, acct, sys)
    | .ok event => commandTail threshold sys acct event

/-- `deposit(amount)`: validate (`status !== "Active"` throws
"Account closed"), then `eventStore.save(streamId, "MoneyDeposited",
{amount}, lastSeq)`, then apply/publish/snapshot. -/
def deposit (threshold : Nat) (sys : Sys) (acct : BankAccount)
    (amount : Int) : Except String Unit × BankAccount × Sys :=
  if (sys.heap.read acct.stateRef).status ≠ "Active" then
    (.error "Account closed", acct, sys)
  else
    let (res, store') := EventStore.save sys.store acct.streamId
      "MoneyDeposited" { amount := some amount } (some acct.lastSeq) sys.time
    let sys := { sys with store := store' }
    match res with
    | .error msg => (.error msg, acct, sys)
    | .ok event => commandTail threshold sys acct event

/-- `withdraw(amount)`: validate status, then the balance guard
(`state.balance < amount` throws "Insufficient funds"), then
`eventStore.save(streamId, "MoneyWithdrawn", {amount}, lastSeq)`,
then apply/publish/snapshot. -/
def withdraw (threshold : Nat) (sys : Sys) (acct : BankAccount)
    (amount : Int) : Except String Unit × BankAccount × Sys :=
  if (sys.heap.read acct.stateRef).status ≠ "Active" then
    (.error "Account closed", acct, sys)
  else if (sys.heap.read acct.stateRef).balance < amount then
    (.error "Insufficient funds", acct, sys)
  else
    let (res, store') := EventStore.save sys.store acct.streamId
      "MoneyWithdrawn" { amount := some amount } (some acct.lastSeq) sys.time
    let sys := { sys with store := store' }
    match res with
    | .error msg => (.error msg, acct, sys)
    | .ok event => commandTail threshold sys acct event

end BankAccount

/-- A command issued against an aggregate, for describing scenarios. -/
inductive Cmd where
  | openAccount (amount : Int)
  | deposit (amount : Int)
  | withdraw (amount : Int)
deriving Repr, DecidableEq

/-- Executes one command against a live aggregate (errors are surfaced to the
caller in the source; the resulting state is the state after the call either
way, so the scenario runner keeps only it). -/
def execCmd (threshold : Nat) (p : BankAccount × Sys) (c : Cmd) :
    BankAccount × Sys :=
  match c with
  | .openAccount a =>
      let (_, acct, sys) := BankAccount.openAccount threshold p.2 p.1 a
      (acct, sys)
  | .deposit a =>
      let (_, acct, sys) := BankAccount.deposit threshold p.2 p.1 a
      (acct, sys)
  | .withdraw a =>
      let (_, acct, sys) := BankAccount.withdraw threshold p.2 p.1 a
      (acct, sys)

/-- Executes a command sequence on one aggregate instance. -/
def execCmds (threshold : Nat) (p : BankAccount × Sys) (cs : List Cmd) :
    BankAccount × Sys :=
  cs.foldl (execCmd threshold) p

/-- The end-to-end scenario of the spec: 5 commands on a fresh stream with
snapshot threshold 5. -/
def scenarioCmds : List Cmd :=
  [.openAccount 100, .deposit 50, .withdraw 20, .deposit 10, .deposit 10]

/-- Fresh aggregate on the empty system, the 5 scenario commands applied. -/
def scenarioRun : BankAccount × Sys :=
  execCmds 5 (BankAccount.new Sys.init "acc-1") scenarioCmds

/-- The state value held inside the snapshot store for `streamId`
(dereferenced through the heap), or the given default when absent. -/
def snapshotStateVal (sys : Sys) (streamId : String) : AccountState :=
  match SnapshotManager.getSnapshot sys.snapshots streamId with
  | some snapshot => sys.heap.read snapshot.stateRef
  | none => { balance := 0, status := "" }

/-- After the scenario: a second aggregate instance is constructed and
loaded (snapshot hit at seqNum 5, no delta). -/
def traceLoaded2 : BankAccount × Sys :=
  let (a2, sys) := BankAccount.new scenarioRun.2 "acc-1"
  BankAccount.load sys a2

/-- ... then `deposit(10)` is executed on that loaded aggregate
(event 6; `6 % 5 ≠ 0`, so no new snapshot is saved). -/
def traceAfterDeposit : BankAccount × Sys :=
  let (_, acct, sys) :=
    BankAccount.deposit 5 traceLoaded2.2 traceLoaded2.1 10
  (acct, sys)

/-- ... then a third instance is constructed and loaded via the snapshot-hit
path (snapshot at seqNum 5 plus the delta event 6). -/
def traceLoaded3 : BankAccount × Sys :=
  let (a3, sys) := BankAccount.new traceAfterDeposit.2 "acc-1"
  BankAccount.load sys a3

/-- The same load performed with the snapshot store empty: the full-replay
path over the identical event history. -/
def traceLoadedFull : BankAccount × Sys :=
  let (a4, sys) :=
    BankAccount.new { traceAfterDeposit.2 with snapshots := [] } "acc-1"
  BankAccount.load sys a4

/-- The live state value of a loaded aggregate. -/
def liveStateVal (p : BankAccount × Sys) : AccountState :=
  p.2.heap.read p.1.stateRef

/-- A concrete system for witnesses: one allocated state object
`{balance 5, Active}` at cell 0, stream "s" already at version 1. -/
def witSys : Sys :=
  { Sys.init with
      heap := Sys.init.heap.write 0 { balance := 5, status := "Active" },
      store := [("s", [{ streamId := "s", type := "AccountOpened",
                         data := { initialAmount := some 5 }, seqNum := 1,
                         timestamp := 0 }])] }

/-- A stale aggregate for witnesses: its `lastSeq = 0` while stream "s" in
`witSys` is at version 1. -/
def witAcct : BankAccount := { streamId := "s", stateRef := 0, lastSeq := 0 }

/-- A sequence of `applyUpdate` calls `(id, eventType, data, seqNum)` folded
over the read model, for stating properties of call sequences. -/
def applyCalls (db : ReadModelMap)
    (calls : List (String × String × Payload × Nat)) : ReadModelMap :=
  calls.foldl
    (fun d c => ReadModelDB.applyUpdate d c.1 c.2.1 c.2.2.1 c.2.2.2) db

/-- The per-stream ledger invariant: every stream's `seqNum`s are exactly
`1, 2, ..., length`, in order. -/
def ledgerInvariant (store : StreamMap) : Prop :=
  ∀ id, (EventStore.streamEvents store id).map Event.seqNum =
        List.range' 1 (EventStore.streamEvents store id).length

/-- The event-store states reachable from the empty store by any sequence of
`save` calls (succeeding or failing); `getStream` does not mutate. -/
inductive ReachableStore : StreamMap → Prop where
  | init : ReachableStore []
  | step (store : StreamMap) (streamId eventType : String) (data : Payload)
      (expectedSeq : Option Nat) (now : Nat) :
      ReachableStore store →
      ReachableStore
        (EventStore.save store streamId eventType data expectedSeq now).2

/-- A concrete well-formed stream for `getStream` witnesses: events 1..3. -/
def witStore : StreamMap :=
  [("s",
    [{ streamId := "s", type := "AccountOpened",
       data := { initialAmount := some 100 }, seqNum := 1, timestamp := 0 },
     { streamId := "s", type := "MoneyDeposited",
       data := { amount := some 50 }, seqNum := 2, timestamp := 1 },
     { streamId := "s", type := "MoneyWithdrawn",
       data := { amount := some 20 }, seqNum := 3, timestamp := 2 }])]

/-- C1. Replay determinism FAILS on the code: after the 5-command scenario
(snapshot saved at seqNum 5 with balance 150), a snapshot-hit `load` aliases
the live state to the stored snapshot object, and a further `deposit(10)`
(event 6) mutates that shared object. The stream then holds events 1..6,
yet loading via the snapshot-hit path yields balance 170 while loading via
full replay from the beginning yields balance 160 — same `lastSeq = 6`,
different `state`. -/
theorem C1_replay_divergence :
    (EventStore.streamEvents traceAfterDeposit.2.store "acc-1").map
        Event.seqNum = [1, 2, 3, 4, 5, 6] ∧
    traceLoaded3.1.lastSeq = 6 ∧ traceLoadedFull.1.lastSeq = 6 ∧
    liveStateVal traceLoaded3 = { balance := 170, status := "Active" } ∧
    liveStateVal traceLoadedFull = { balance := 160, status := "Active" } ∧
    liveStateVal traceLoaded3 ≠ liveStateVal traceLoadedFull := by
  decide

/-- C2. Snapshot non-aliasing FAILS on the code: right after the scenario the
stored snapshot for the stream holds `{balance 150, Active}` at
`lastSeqNum 5`; executing `deposit(10)` on an aggregate that was loaded from
that snapshot mutates the state object inside the snapshot store to
`{balance 160, Active}` while its `lastSeqNum` stays 5. -/
theorem C2_snapshot_corruption :
    snapshotStateVal scenarioRun.2 "acc-1" =
      { balance := 150, status := "Active" } ∧
    (SnapshotManager.getSnapshot scenarioRun.2.snapshots "acc-1").map
        Snapshot.lastSeqNum = some 5 ∧
    snapshotStateVal traceAfterDeposit.2 "acc-1" =
      { balance := 160, status := "Active" } ∧
    (SnapshotManager.getSnapshot traceAfterDeposit.2.snapshots "acc-1").map
        Snapshot.lastSeqNum = some 5 ∧
    snapshotStateVal traceAfterDeposit.2 "acc-1" ≠
      snapshotStateVal scenarioRun.2 "acc-1" := by
  decide

/-- C8. End-to-end scenario: from a fresh stream and empty snapshot store
with threshold 5, `openAccount(100); deposit(50); withdraw(20); deposit(10);
deposit(10)` yields balance 150 and `lastSeq = 5`, and exactly one snapshot
save occurs, at sequence number 5. -/
theorem C8_end_to_end :
    liveStateVal scenarioRun = { balance := 150, status := "Active" } ∧
    scenarioRun.1.lastSeq = 5 ∧
    scenarioRun.2.snapLog = [("acc-1", 5)] := by
  decide

/-! ### Association-list lemmas -/

theorem alGet_alSet_self {α : Type} (m : List (String × α)) (k : String)
    (v : α) : alGet (alSet m k v) k = some v := by
  induction m with
  | nil => simp [alGet, alSet]
  | cons p rest ih =>
      obtain ⟨k', v'⟩ := p
      by_cases h : k' = k <;> simp [alGet, alSet, h, ih]

theorem alGet_alSet_ne {α : Type} (m : List (String × α)) (k k' : String)
    (v : α) (h : k ≠ k') : alGet (alSet m k v) k' = alGet m k' := by
  induction m with
  | nil => simp [alGet, alSet, h]
  | cons p rest ih =>
      obtain ⟨k₀, v₀⟩ := p
      by_cases h0 : k₀ = k
      · subst h0
        simp [alGet, alSet, h]
      · simp [alGet, alSet, h0, ih]

/-! ### EventStore lemmas -/

theorem streamEvents_ensure (store : StreamMap) (streamId id' : String) :
    EventStore.streamEvents (EventStore.ensureStream store streamId) id' =
      EventStore.streamEvents store id' := by
  unfold EventStore.ensureStream
  by_cases h : alHas store streamId
  · simp [h]
  · have hget : alGet store streamId = none := by
      unfold alHas at h
      cases hg : alGet store streamId <;> simp [hg] at h ⊢
    by_cases hk : streamId = id'
    · subst hk
      simp [h, EventStore.streamEvents, alGet_alSet_self, hget]
    · simp [h, EventStore.streamEvents, alGet_alSet_ne _ _ _ _ hk]

theorem getStream_ensure (store : StreamMap) (streamId id' : String)
    (opts : GetStreamOptions) :
    EventStore.getStream (EventStore.ensureStream store streamId) id' opts =
      EventStore.getStream store id' opts := by
  unfold EventStore.getStream
  rw [streamEvents_ensure]

theorem currentVersion_ensure (store : StreamMap) (streamId : String) :
    EventStore.currentVersion (EventStore.ensureStream store streamId)
        streamId = EventStore.currentVersion store streamId := by
  unfold EventStore.currentVersion
  rw [getStream_ensure]

/-- C6. Validation fails fast with no side effect: `openAccount` on an
already-Active account, `deposit`/`withdraw` on a non-Active account, and
`withdraw` of more than the balance each return the domain validation error
with the aggregate (state reference and `lastSeq`) and the whole system
(event store, heap, snapshot store, published events) unchanged — nothing
is appended. -/
theorem C6_validation_no_side_effect :
    (∀ threshold sys acct amount,
        (sys.heap.read acct.stateRef).status = "Active" →
        BankAccount.openAccount threshold sys acct amount =
          (.error "Already active", acct, sys)) ∧
    (∀ threshold sys acct amount,
        (sys.heap.read acct.stateRef).status ≠ "Active" →
        BankAccount.deposit threshold sys acct amount =
          (.error "Account closed", acct, sys)) ∧
    (∀ threshold sys acct amount,
        (sys.heap.read acct.stateRef).status ≠ "Active" →
        BankAccount.withdraw threshold sys acct amount =
          (.error "Account closed", acct, sys)) ∧
    (∀ threshold sys acct amount,
        (sys.heap.read acct.stateRef).status = "Active" →
        (sys.heap.read acct.stateRef).balance < amount →
        BankAccount.withdraw threshold sys acct amount =
          (.error "Insufficient funds", acct, sys)) := by
  refine ⟨?_, ?_, ?_, ?_⟩
  · intro threshold sys acct amount h
    simp [BankAccount.openAccount, h]
  · intro threshold sys acct amount h
    simp [BankAccount.deposit, h]
  · intro threshold sys acct amount h
    simp [BankAccount.withdraw, h]
  · intro threshold sys acct amount h hb
    simp [BankAccount.withdraw, h, hb]

/-- Witness for C6 at concrete inputs: a closed account rejects `deposit`
and `withdraw`, an active account with balance 5 rejects `openAccount` and
`withdraw 7`, each without any change. -/
theorem C6_validation_no_side_effect_witness :
    BankAccount.deposit 5 Sys.init
        { streamId := "s", stateRef := 0, lastSeq := 0 } 3 =
      (.error "Account closed",
       { streamId := "s", stateRef := 0, lastSeq := 0 }, Sys.init) ∧
    BankAccount.withdraw 5 Sys.init
        { streamId := "s", stateRef := 0, lastSeq := 0 } 3 =
      (.error "Account closed",
       { streamId := "s", stateRef := 0, lastSeq := 0 }, Sys.init) ∧
    BankAccount.openAccount 5
        { Sys.init with
            heap := Sys.init.heap.write 0 { balance := 5, status := "Active" } }
        { streamId := "s", stateRef := 0, lastSeq := 0 } 3 =
      (.error "Already active",
       { streamId := "s", stateRef := 0, lastSeq := 0 },
       { Sys.init with
           heap := Sys.init.heap.write 0 { balance := 5, status := "Active" } }) ∧
    BankAccount.withdraw 5
        { Sys.init with
            heap := Sys.init.heap.write 0 { balance := 5, status := "Active" } }
        { streamId := "s", stateRef := 0, lastSeq := 0 } 7 =
      (.error "Insufficient funds",
       { streamId := "s", stateRef := 0, lastSeq := 0 },
       { Sys.init with
           heap := Sys.init.heap.write 0 { balance := 5, status := "Active" } }) :=
  ⟨C6_validation_no_side_effect.2.1 5 Sys.init _ 3 (by decide),
   C6_validation_no_side_effect.2.2.1 5 Sys.init _ 3 (by decide),
   C6_validation_no_side_effect.1 5 _ _ 3 (by decide),
   C6_validation_no_side_effect.2.2.2 5 _ _ 7 (by decide) (by decide)⟩

/-- C9. Snapshot isolation on save: `saveSnapshot(id, state, n)` stores a
structurally independent copy (`structuredClone`), so any later in-place
mutation of the very state object that was passed in leaves the state value
behind a subsequent `getSnapshot(id)` unchanged; that stored value is the
state's value at save time. (`stateRef < heap.next` says the passed state
object is an allocated object of the heap.) -/
theorem C9_snapshot_isolation_on_save :
    ∀ (heap : Heap) (snapshots : SnapMap) (streamId : String) (stateRef : Ref)
      (lastSeqNum now : Nat) (v : AccountState),
      stateRef < heap.next →
      ∃ s, SnapshotManager.getSnapshot
          (SnapshotManager.saveSnapshot heap snapshots streamId stateRef
            lastSeqNum now).2 streamId = some s ∧
        ((SnapshotManager.saveSnapshot heap snapshots streamId stateRef
            lastSeqNum now).1.write stateRef v).read s.stateRef =
          (SnapshotManager.saveSnapshot heap snapshots streamId stateRef
            lastSeqNum now).1.read s.stateRef ∧
        (SnapshotManager.saveSnapshot heap snapshots streamId stateRef
            lastSeqNum now).1.read s.stateRef = heap.read stateRef := by
  intro heap snapshots streamId stateRef lastSeqNum now v h
  have hne : heap.next ≠ stateRef := Ne.symm (Nat.ne_of_lt h)
  refine ⟨{ stateRef := heap.next, lastSeqNum := lastSeqNum, timestamp := now },
          ?_, ?_, ?_⟩ <;>
    simp [SnapshotManager.saveSnapshot, SnapshotManager.getSnapshot,
          Heap.alloc, Heap.read, Heap.write, alGet_alSet_self, hne]

/-- Witness for C9: a one-cell heap holding `{balance 7, Active}` at cell 0;
after `saveSnapshot` and an overwrite of cell 0 with `{balance 9, Closed}`,
the snapshot still reads `{balance 7, Active}`. -/
theorem C9_snapshot_isolation_on_save_witness :
    ∃ s, SnapshotManager.getSnapshot
        (SnapshotManager.saveSnapshot
          { next := 1, mem := fun _ => { balance := 7, status := "Active" } }
          [] "s" 0 5 0).2 "s" = some s ∧
      ((SnapshotManager.saveSnapshot
          { next := 1, mem := fun _ => { balance := 7, status := "Active" } }
          [] "s" 0 5 0).1.write 0 { balance := 9, status := "Closed" }).read
          s.stateRef =
        (SnapshotManager.saveSnapshot
          { next := 1, mem := fun _ => { balance := 7, status := "Active" } }
          [] "s" 0 5 0).1.read s.stateRef ∧
      (SnapshotManager.saveSnapshot
          { next := 1, mem := fun _ => { balance := 7, status := "Active" } }
          [] "s" 0 5 0).1.read s.stateRef =
        Heap.read
          { next := 1, mem := fun _ => { balance := 7, status := "Active" } }
          0 :=
  C9_snapshot_isolation_on_save
    { next := 1, mem := fun _ => { balance := 7, status := "Active" } }
    [] "s" 0 5 0 { balance := 9, status := "Closed" } (by decide)

/-- C3. Optimistic concurrency. Store level: whenever the provided
`expectedSeq` differs from the stream's current version, `save` returns the
ConcurrencyConflict error and every `getStream` query observes an unchanged
store. Aggregate level: a command (here `deposit`) issued through an
aggregate whose `lastSeq = k` while the store is at version `k + 1` fails
with that error and appends nothing — aggregate, heap, snapshot store and
published events are untouched and all `getStream` queries are unchanged. -/
theorem C3_optimistic_concurrency :
    (∀ (store : StreamMap) (streamId eventType : String) (data : Payload)
        (expectedSeq now : Nat),
        EventStore.currentVersion store streamId ≠ expectedSeq →
        (EventStore.save store streamId eventType data (some expectedSeq)
            now).1 =
          .error (EventStore.concurrencyConflictMsg streamId expectedSeq
            (EventStore.currentVersion store streamId)) ∧
        ∀ id' opts,
          EventStore.getStream
              (EventStore.save store streamId eventType data (some expectedSeq)
                now).2 id' opts =
            EventStore.getStream store id' opts) ∧
    (∀ (threshold : Nat) (sys : Sys) (acct : BankAccount) (amount : Int),
        (sys.heap.read acct.stateRef).status = "Active" →
        EventStore.currentVersion sys.store acct.streamId = acct.lastSeq + 1 →
        (BankAccount.deposit threshold sys acct amount).1 =
          .error (EventStore.concurrencyConflictMsg acct.streamId acct.lastSeq
            (acct.lastSeq + 1)) ∧
        (BankAccount.deposit threshold sys acct amount).2.1 = acct ∧
        (BankAccount.deposit threshold sys acct amount).2.2.heap = sys.heap ∧
        (BankAccount.deposit threshold sys acct amount).2.2.snapshots =
          sys.snapshots ∧
        (BankAccount.deposit threshold sys acct amount).2.2.published =
          sys.published ∧
        ∀ id' opts,
          EventStore.getStream
              (BankAccount.deposit threshold sys acct amount).2.2.store
              id' opts =
            EventStore.getStream sys.store id' opts) := by
  constructor
  · intro store streamId eventType data expectedSeq now h
    constructor
    · simp [EventStore.save, currentVersion_ensure, h]
    · intro id' opts
      simp [EventStore.save, currentVersion_ensure, h, getStream_ensure]
  · intro threshold sys acct amount hactive hver
    have h1 : EventStore.currentVersion sys.store acct.streamId ≠
        acct.lastSeq := by omega
    refine ⟨?_, ?_, ?_, ?_, ?_, ?_⟩ <;>
      simp [BankAccount.deposit, hactive, EventStore.save,
            currentVersion_ensure, hver, h1, getStream_ensure]

/-- Witness for C3: on the empty store, `save` with `expectedSeq = 1`
(version is 0) conflicts and changes no query result; on `witSys` (stream
"s" at version 1) a `deposit` through the stale `witAcct` (`lastSeq = 0`)
conflicts and leaves everything unchanged. -/
theorem C3_optimistic_concurrency_witness :
    (EventStore.save [] "s" "T" {} (some 1) 0).1 =
      .error (EventStore.concurrencyConflictMsg "s" 1
        (EventStore.currentVersion [] "s")) ∧
    EventStore.getStream (EventStore.save [] "s" "T" {} (some 1) 0).2 "s" {} =
      EventStore.getStream [] "s" {} ∧
    (BankAccount.deposit 5 witSys witAcct 3).1 =
      .error (EventStore.concurrencyConflictMsg "s" 0 1) ∧
    (BankAccount.deposit 5 witSys witAcct 3).2.1 = witAcct ∧
    (BankAccount.deposit 5 witSys witAcct 3).2.2.heap = witSys.heap ∧
    (BankAccount.deposit 5 witSys witAcct 3).2.2.snapshots =
      witSys.snapshots ∧
    (BankAccount.deposit 5 witSys witAcct 3).2.2.published =
      witSys.published ∧
    EventStore.getStream (BankAccount.deposit 5 witSys witAcct 3).2.2.store
        "s" {} =
      EventStore.getStream witSys.store "s" {} :=
  ⟨(C3_optimistic_concurrency.1 [] "s" "T" {} 1 0 (by decide)).1,
   (C3_optimistic_concurrency.1 [] "s" "T" {} 1 0 (by decide)).2 "s" {},
   (C3_optimistic_concurrency.2 5 witSys witAcct 3 (by decide) (by decide)).1,
   (C3_optimistic_concurrency.2 5 witSys witAcct 3 (by decide) (by decide)).2.1,
   (C3_optimistic_concurrency.2 5 witSys witAcct 3 (by decide)
     (by decide)).2.2.1,
   (C3_optimistic_concurrency.2 5 witSys witAcct 3 (by decide)
     (by decide)).2.2.2.1,
   (C3_optimistic_concurrency.2 5 witSys witAcct 3 (by decide)
     (by decide)).2.2.2.2.1,
   (C3_optimistic_concurrency.2 5 witSys witAcct 3 (by decide)
     (by decide)).2.2.2.2.2 "s" {}⟩

/-! ### ReadModelDB lemmas -/

theorem applyUpdate_guard (db : ReadModelMap) (id eventType : String)
    (data : Payload) (seqNum : Nat)
    (h : seqNum ≤ ReadModelDB.recordSeq db id) :
    ReadModelDB.applyUpdate db id eventType data seqNum = db := by
  have h' : seqNum ≤
      ((alGet db id).getD (ReadModelDB.defaultRecord id)).lastProcessedSeq := h
  simp only [ReadModelDB.applyUpdate]
  rw [if_pos h']

theorem applyUpdate_recordSeq_self (db : ReadModelMap) (id eventType : String)
    (data : Payload) (seqNum : Nat)
    (h : ReadModelDB.recordSeq db id < seqNum) :
    ReadModelDB.recordSeq (ReadModelDB.applyUpdate db id eventType data seqNum)
        id = seqNum := by
  have h' : ¬ seqNum ≤
      ((alGet db id).getD (ReadModelDB.defaultRecord id)).lastProcessedSeq := by
    exact Nat.not_le_of_lt h
  simp only [ReadModelDB.applyUpdate, ReadModelDB.recordSeq]
  rw [if_neg h', alGet_alSet_self]
  rfl

theorem applyUpdate_recordSeq_other (db : ReadModelMap)
    (id eventType : String) (data : Payload) (seqNum : Nat) (id' : String)
    (hid : id ≠ id') :
    ReadModelDB.recordSeq (ReadModelDB.applyUpdate db id eventType data seqNum)
        id' = ReadModelDB.recordSeq db id' := by
  by_cases hg : seqNum ≤ ReadModelDB.recordSeq db id
  · rw [applyUpdate_guard db id eventType data seqNum hg]
  · have h' : ¬ seqNum ≤
        ((alGet db id).getD (ReadModelDB.defaultRecord id)).lastProcessedSeq :=
      hg
    simp only [ReadModelDB.applyUpdate, ReadModelDB.recordSeq]
    rw [if_neg h', alGet_alSet_ne _ _ _ _ hid]

theorem applyUpdate_recordSeq_mono (db : ReadModelMap) (id eventType : String)
    (data : Payload) (seqNum : Nat) (id' : String) :
    ReadModelDB.recordSeq db id' ≤
      ReadModelDB.recordSeq
        (ReadModelDB.applyUpdate db id eventType data seqNum) id' := by
  by_cases hg : seqNum ≤ ReadModelDB.recordSeq db id
  · rw [applyUpdate_guard db id eventType data seqNum hg]
  · by_cases hid : id = id'
    · subst hid
      rw [applyUpdate_recordSeq_self db id eventType data seqNum (by omega)]
      omega
    · rw [applyUpdate_recordSeq_other db id eventType data seqNum id' hid]

theorem applyCalls_recordSeq_mono (db : ReadModelMap) (id' : String)
    (calls : List (String × String × Payload × Nat)) :
    ReadModelDB.recordSeq db id' ≤
      ReadModelDB.recordSeq (applyCalls db calls) id' := by
  induction calls generalizing db with
  | nil => simp [applyCalls]
  | cons c rest ih =>
      have h1 := applyUpdate_recordSeq_mono db c.1 c.2.1 c.2.2.1 c.2.2.2 id'
      have h2 := ih (ReadModelDB.applyUpdate db c.1 c.2.1 c.2.2.1 c.2.2.2)
      simp only [applyCalls, List.foldl_cons] at h2 ⊢
      omega

/-- C5. Read-model idempotency: an `applyUpdate` whose `seqNum` is at most
the record's `lastProcessedSeq` (0 for an absent record) returns the read
model unchanged; `lastProcessedSeq` is monotonically non-decreasing under a
single call and under any sequence of calls; and applying the same event
(same `seqNum`) twice yields the same read model as applying it once. -/
theorem C5_read_model_idempotency :
    (∀ (db : ReadModelMap) (id eventType : String) (data : Payload)
        (seqNum : Nat), seqNum ≤ ReadModelDB.recordSeq db id →
        ReadModelDB.applyUpdate db id eventType data seqNum = db) ∧
    (∀ (db : ReadModelMap) (id eventType : String) (data : Payload)
        (seqNum : Nat) (id' : String),
        ReadModelDB.recordSeq db id' ≤
          ReadModelDB.recordSeq
            (ReadModelDB.applyUpdate db id eventType data seqNum) id') ∧
    (∀ (db : ReadModelMap) (id' : String)
        (calls : List (String × String × Payload × Nat)),
        ReadModelDB.recordSeq db id' ≤
          ReadModelDB.recordSeq (applyCalls db calls) id') ∧
    (∀ (db : ReadModelMap) (id eventType : String) (data : Payload)
        (seqNum : Nat),
        ReadModelDB.applyUpdate
            (ReadModelDB.applyUpdate db id eventType data seqNum)
            id eventType data seqNum =
          ReadModelDB.applyUpdate db id eventType data seqNum) := by
  refine ⟨applyUpdate_guard, applyUpdate_recordSeq_mono,
          applyCalls_recordSeq_mono, ?_⟩
  intro db id eventType data seqNum
  by_cases hg : seqNum ≤ ReadModelDB.recordSeq db id
  · rw [applyUpdate_guard db id eventType data seqNum hg,
        applyUpdate_guard db id eventType data seqNum hg]
  · exact applyUpdate_guard _ id eventType data seqNum
      (by rw [applyUpdate_recordSeq_self db id eventType data seqNum
                (by omega)])

/-- Witness for C5: on the empty read model a `seqNum = 0` update is a
no-op; monotonicity holds at a concrete call and call list; a duplicated
`MoneyDeposited` with `seqNum = 1` is absorbed. -/
theorem C5_read_model_idempotency_witness :
    ReadModelDB.applyUpdate [] "u" "MoneyDeposited"
        { amount := some 5 } 0 = [] ∧
    ReadModelDB.recordSeq [] "u" ≤
      ReadModelDB.recordSeq
        (ReadModelDB.applyUpdate [] "u" "AccountOpened"
          { initialAmount := some 9 } 1) "u" ∧
    ReadModelDB.recordSeq [] "u" ≤
      ReadModelDB.recordSeq
        (applyCalls [] [("u", "AccountOpened", { initialAmount := some 9 }, 1),
                        ("u", "MoneyDeposited", { amount := some 5 }, 2)])
        "u" ∧
    ReadModelDB.applyUpdate
        (ReadModelDB.applyUpdate [] "u" "MoneyDeposited" { amount := some 5 }
          1) "u" "MoneyDeposited" { amount := some 5 } 1 =
      ReadModelDB.applyUpdate [] "u" "MoneyDeposited" { amount := some 5 } 1 :=
  ⟨C5_read_model_idempotency.1 [] "u" "MoneyDeposited" { amount := some 5 } 0
     (by decide),
   C5_read_model_idempotency.2.1 [] "u" "AccountOpened"
     { initialAmount := some 9 } 1 "u",
   C5_read_model_idempotency.2.2.1 [] "u"
     [("u", "AccountOpened", { initialAmount := some 9 }, 1),
      ("u", "MoneyDeposited", { amount := some 5 }, 2)],
   C5_read_model_idempotency.2.2.2 [] "u" "MoneyDeposited"
     { amount := some 5 } 1⟩

/-- C10 (implicit). For a fresh `seqNum` (greater than the record's
`lastProcessedSeq`) and an `eventType` none of `AccountOpened`,
`MoneyDeposited`, `MoneyWithdrawn`, `applyUpdate` stores the record with
balance and status unchanged (creating it with defaults `balance 0`,
`status "Closed"` when absent) but with `lastProcessedSeq = seqNum`; hence
any later `applyUpdate` with a sequence number at most `seqNum` — a genuine
event included — is silently skipped by the idempotency guard. -/
theorem C10_unknown_event_advances_cursor :
    ∀ (db : ReadModelMap) (id eventType : String) (data : Payload)
      (seqNum : Nat),
      ReadModelDB.recordSeq db id < seqNum →
      eventType ≠ "AccountOpened" → eventType ≠ "MoneyDeposited" →
      eventType ≠ "MoneyWithdrawn" →
      alGet (ReadModelDB.applyUpdate db id eventType data seqNum) id =
        some { (alGet db id).getD (ReadModelDB.defaultRecord id) with
               lastProcessedSeq := seqNum } ∧
      ∀ (eventType' : String) (data' : Payload) (seqNum' : Nat),
        seqNum' ≤ seqNum →
        ReadModelDB.applyUpdate
            (ReadModelDB.applyUpdate db id eventType data seqNum)
            id eventType' data' seqNum' =
          ReadModelDB.applyUpdate db id eventType data seqNum := by
  intro db id eventType data seqNum hlt h1 h2 h3
  have h' : ¬ seqNum ≤
      ((alGet db id).getD (ReadModelDB.defaultRecord id)).lastProcessedSeq :=
    Nat.not_le_of_lt hlt
  constructor
  · simp only [ReadModelDB.applyUpdate]
    rw [if_neg h']
    exact alGet_alSet_self ..
  · intro eventType' data' seqNum' hle
    exact applyUpdate_guard _ id eventType' data' seqNum'
      (by rw [applyUpdate_recordSeq_self db id eventType data seqNum hlt]
          exact hle)

/-- Witness for C10: on the empty read model, an unknown event type
`"Bogus"` at `seqNum = 2` creates the default record with cursor 2, and a
genuine `MoneyDeposited` at `seqNum = 1` afterwards is skipped. -/
theorem C10_unknown_event_advances_cursor_witness :
    alGet (ReadModelDB.applyUpdate [] "u" "Bogus" {} 2) "u" =
      some { (alGet ([] : ReadModelMap) "u").getD
               (ReadModelDB.defaultRecord "u") with lastProcessedSeq := 2 } ∧
    ReadModelDB.applyUpdate (ReadModelDB.applyUpdate [] "u" "Bogus" {} 2)
        "u" "MoneyDeposited" { amount := some 5 } 1 =
      ReadModelDB.applyUpdate [] "u" "Bogus" {} 2 :=
  ⟨(C10_unknown_event_advances_cursor [] "u" "Bogus" {} 2 (by decide)
      (by decide) (by decide) (by decide)).1,
   (C10_unknown_event_advances_cursor [] "u" "Bogus" {} 2 (by decide)
      (by decide) (by decide) (by decide)).2 "MoneyDeposited"
     { amount := some 5 } 1 (by decide)⟩

/-! ### Ledger lemmas -/

theorem lastSeq_of_contiguous (l : List Event) (b : Event)
    (hinv : ((l ++ [b]).map Event.seqNum) =
            List.range' 1 (l ++ [b]).length) :
    b.seqNum = l.length + 1 := by
  have h := congrArg List.getLast? hinv
  simp only [List.map_append, List.map_cons, List.map_nil,
             List.getLast?_concat, List.length_append, List.length_cons,
             List.length_nil, List.getLast?_range'] at h
  rw [if_neg (by omega)] at h
  have := Option.some.inj h
  omega

theorem currentVersion_eq_length (store : StreamMap) (id : String)
    (hinv : (EventStore.streamEvents store id).map Event.seqNum =
            List.range' 1 (EventStore.streamEvents store id).length) :
    EventStore.currentVersion store id =
      (EventStore.streamEvents store id).length := by
  rcases List.eq_nil_or_concat (EventStore.streamEvents store id) with
    h | ⟨L, b, h⟩
  · unfold EventStore.currentVersion EventStore.getStream
    rw [h]
    simp
  · rw [List.concat_eq_append] at h
    have hb : b.seqNum = L.length + 1 :=
      lastSeq_of_contiguous L b (by rw [← h]; exact hinv)
    unfold EventStore.currentVersion EventStore.getStream
    rw [h]
    simp [hb]

theorem save_preserves_ledger (store : StreamMap)
    (streamId eventType : String) (data : Payload)
    (expectedSeq : Option Nat) (now : Nat) (hinv : ledgerInvariant store) :
    ledgerInvariant
      (EventStore.save store streamId eventType data expectedSeq now).2 := by
  intro id
  simp only [EventStore.save]
  split
  · simp only [streamEvents_ensure]
    exact hinv id
  · by_cases hid : streamId = id
    · subst hid
      have hnew : EventStore.streamEvents
          (alSet (EventStore.ensureStream store streamId) streamId
            ((alGet (EventStore.ensureStream store streamId)
                streamId).getD [] ++
             [{ streamId := streamId, type := eventType, data := data,
                seqNum := EventStore.currentVersion
                  (EventStore.ensureStream store streamId) streamId + 1,
                timestamp := now }])) streamId =
          EventStore.streamEvents store streamId ++
          [{ streamId := streamId, type := eventType, data := data,
             seqNum := EventStore.currentVersion
               (EventStore.ensureStream store streamId) streamId + 1,
             timestamp := now }] := by
        have := streamEvents_ensure store streamId streamId
        simp only [EventStore.streamEvents] at this ⊢
        rw [alGet_alSet_self, Option.getD_some, this]
      simp only [hnew]
      rw [currentVersion_ensure, currentVersion_eq_length store streamId
        (hinv streamId)]
      simp only [List.map_append, List.map_cons, List.map_nil,
                 List.length_append, List.length_cons, List.length_nil]
      rw [hinv streamId]
      have := List.range'_1_concat 1
        (EventStore.streamEvents store streamId).length
      simp only [Nat.add_zero] at this ⊢
      rw [show (EventStore.streamEvents store streamId).length + (0 + 1) =
            (EventStore.streamEvents store streamId).length + 1 by omega,
          this]
      congr 1
      simp
      omega
    · have : EventStore.streamEvents
          (alSet (EventStore.ensureStream store streamId) streamId
            ((alGet (EventStore.ensureStream store streamId)
                streamId).getD [] ++
             [{ streamId := streamId, type := eventType, data := data,
                seqNum := EventStore.currentVersion
                  (EventStore.ensureStream store streamId) streamId + 1,
                timestamp := now }])) id =
          EventStore.streamEvents store id := by
        simp only [EventStore.streamEvents]
        rw [alGet_alSet_ne _ _ _ _ hid]
        have := streamEvents_ensure store streamId id
        simp only [EventStore.streamEvents] at this
        exact this
      simp only [this]
      exact hinv id

theorem save_append_only (store : StreamMap) (streamId eventType : String)
    (data : Payload) (expectedSeq : Option Nat) (now : Nat) (id' : String) :
    ∃ rest, EventStore.streamEvents
        (EventStore.save store streamId eventType data expectedSeq now).2
        id' =
      EventStore.streamEvents store id' ++ rest := by
  simp only [EventStore.save]
  split
  · exact ⟨[], by rw [streamEvents_ensure, List.append_nil]⟩
  · by_cases hid : streamId = id'
    · subst hid
      refine ⟨[{ streamId := streamId, type := eventType, data := data,
                 seqNum := EventStore.currentVersion
                   (EventStore.ensureStream store streamId) streamId + 1,
                 timestamp := now }], ?_⟩
      have := streamEvents_ensure store streamId streamId
      simp only [EventStore.streamEvents] at this ⊢
      rw [alGet_alSet_self, Option.getD_some, this]
    · refine ⟨[], ?_⟩
      rw [List.append_nil]
      have := streamEvents_ensure store streamId id'
      simp only [EventStore.streamEvents] at this ⊢
      rw [alGet_alSet_ne _ _ _ _ hid, this]

theorem save_first_append (store : StreamMap) (streamId eventType : String)
    (data : Payload) (now : Nat)
    (hempty : EventStore.streamEvents store streamId = []) :
    (EventStore.save store streamId eventType data (some 0) now).1 =
      .ok { streamId := streamId, type := eventType, data := data,
            seqNum := 1, timestamp := now } := by
  have hv : EventStore.currentVersion (EventStore.ensureStream store streamId)
      streamId = 0 := by
    unfold EventStore.currentVersion EventStore.getStream
    rw [streamEvents_ensure, hempty]
    simp
  simp only [EventStore.save, hv]
  simp

theorem reachable_ledger (store : StreamMap) (h : ReachableStore store) :
    ledgerInvariant store := by
  induction h with
  | init =>
      intro id
      simp [EventStore.streamEvents, alGet]
  | step s streamId eventType data expectedSeq now _ ih =>
      exact save_preserves_ledger s streamId eventType data expectedSeq now ih

/-- C4. Event-ledger invariant: every store reachable from the empty store
by `save` calls has, per stream, `seqNum`s exactly `1, 2, ..., length` in
order (strictly increasing from 1, contiguous); every `save` call only ever
appends — each stream's prior event list is a prefix of the new one, so
appended events are never modified or deleted; and the first append to an
empty stream with `expectedSeq = 0` succeeds, assigning `seqNum = 1`. -/
theorem C4_event_ledger :
    (∀ store, ReachableStore store → ∀ id,
        (EventStore.streamEvents store id).map Event.seqNum =
          List.range' 1 (EventStore.streamEvents store id).length) ∧
    (∀ (store : StreamMap) (streamId eventType : String) (data : Payload)
        (expectedSeq : Option Nat) (now : Nat) (id' : String),
        ∃ rest, EventStore.streamEvents
            (EventStore.save store streamId eventType data expectedSeq
              now).2 id' =
          EventStore.streamEvents store id' ++ rest) ∧
    (∀ (store : StreamMap) (streamId eventType : String) (data : Payload)
        (now : Nat),
        EventStore.streamEvents store streamId = [] →
        (EventStore.save store streamId eventType data (some 0) now).1 =
          .ok { streamId := streamId, type := eventType, data := data,
                seqNum := 1, timestamp := now }) :=
  ⟨fun store h => reachable_ledger store h, save_append_only,
   save_first_append⟩

/-- Witness for C4: the store reached by two successful appends to "acc"
satisfies the invariant; a concrete `save` only appends; the first append to
the empty store with `expectedSeq = 0` yields `seqNum = 1`. -/
theorem C4_event_ledger_witness :
    ((EventStore.streamEvents
        (EventStore.save
          (EventStore.save [] "acc" "AccountOpened"
            { initialAmount := some 1 } (some 0) 0).2
          "acc" "MoneyDeposited" { amount := some 2 } (some 1) 1).2
        "acc").map Event.seqNum =
      List.range' 1
        (EventStore.streamEvents
          (EventStore.save
            (EventStore.save [] "acc" "AccountOpened"
              { initialAmount := some 1 } (some 0) 0).2
            "acc" "MoneyDeposited" { amount := some 2 } (some 1) 1).2
          "acc").length) ∧
    (∃ rest, EventStore.streamEvents
        (EventStore.save witStore "s" "MoneyDeposited" { amount := some 9 }
          (some 3) 7).2 "s" =
      EventStore.streamEvents witStore "s" ++ rest) ∧
    (EventStore.save [] "acc" "AccountOpened" { initialAmount := some 1 }
        (some 0) 0).1 =
      .ok { streamId := "acc", type := "AccountOpened",
            data := { initialAmount := some 1 }, seqNum := 1,
            timestamp := 0 } :=
  ⟨C4_event_ledger.1 _
     (ReachableStore.step _ "acc" "MoneyDeposited" { amount := some 2 }
       (some 1) 1
       (ReachableStore.step _ "acc" "AccountOpened"
         { initialAmount := some 1 } (some 0) 0 ReachableStore.init))
     "acc",
   C4_event_ledger.2.1 witStore "s" "MoneyDeposited" { amount := some 9 }
     (some 3) 7 "s",
   C4_event_ledger.2.2 [] "acc" "AccountOpened" { initialAmount := some 1 }
     0 (by decide)⟩

/-! ### getStream lemmas -/

theorem getStream_forwards_some (store : StreamMap) (id : String) (n : Nat) :
    EventStore.getStream store id
        { startingFromSeqNum := some n, direction := "forwards" } =
      (EventStore.streamEvents store id).filter (fun e => n ≤ e.seqNum) := by
  simp [EventStore.getStream]

theorem getStream_forwards_none (store : StreamMap) (id : String) :
    EventStore.getStream store id { direction := "forwards" } =
      EventStore.streamEvents store id := by
  simp [EventStore.getStream]

theorem getStream_backwards_some (store : StreamMap) (id : String) (n : Nat) :
    EventStore.getStream store id
        { startingFromSeqNum := some n, direction := "backwards" } =
      ((EventStore.streamEvents store id).filter
        (fun e => e.seqNum ≤ n)).reverse := by
  simp [EventStore.getStream]

theorem getStream_backwards_none (store : StreamMap) (id : String) :
    EventStore.getStream store id { direction := "backwards" } =
      (EventStore.streamEvents store id).reverse := by
  simp [EventStore.getStream]

theorem getStream_take (store : StreamMap) (id : String) (st : Option Nat)
    (dir : String) (c : Nat) :
    EventStore.getStream store id
        { startingFromSeqNum := st, direction := dir, maxCount := some c } =
      (EventStore.getStream store id
        { startingFromSeqNum := st, direction := dir }).take c := rfl

theorem getStream_missing (store : StreamMap) (id : String)
    (opts : GetStreamOptions) (h : alGet store id = none) :
    EventStore.getStream store id opts = [] := by
  rcases opts with ⟨st, dir, mc⟩
  cases st <;> cases mc <;>
    simp [EventStore.getStream, EventStore.streamEvents, h]

theorem streamEvents_sorted (store : StreamMap) (id : String)
    (hinv : (EventStore.streamEvents store id).map Event.seqNum =
            List.range' 1 (EventStore.streamEvents store id).length) :
    (EventStore.streamEvents store id).Pairwise
      (fun a b => a.seqNum < b.seqNum) := by
  have h := List.pairwise_lt_range' 1 (EventStore.streamEvents store id).length
  rw [← hinv] at h
  exact List.pairwise_map.mp h

/-- C7. `getStream` query semantics: `forwards` returns exactly the stored
events with `seqNum ≥ startingFromSeqNum` (all when absent) in stored order;
`backwards` exactly those with `seqNum ≤ startingFromSeqNum` (all when
absent) reversed; `maxCount` truncates to the first `maxCount` elements; a
never-used `streamId` yields the empty list; and on a stream satisfying the
ledger invariant the `forwards` results are in strictly ascending and the
`backwards` results in strictly descending `seqNum` order. -/
theorem C7_getStream_semantics :
    (∀ (store : StreamMap) (id : String) (n : Nat),
        EventStore.getStream store id
            { startingFromSeqNum := some n, direction := "forwards" } =
          (EventStore.streamEvents store id).filter
            (fun e => n ≤ e.seqNum)) ∧
    (∀ (store : StreamMap) (id : String),
        EventStore.getStream store id { direction := "forwards" } =
          EventStore.streamEvents store id) ∧
    (∀ (store : StreamMap) (id : String) (n : Nat),
        EventStore.getStream store id
            { startingFromSeqNum := some n, direction := "backwards" } =
          ((EventStore.streamEvents store id).filter
            (fun e => e.seqNum ≤ n)).reverse) ∧
    (∀ (store : StreamMap) (id : String),
        EventStore.getStream store id { direction := "backwards" } =
          (EventStore.streamEvents store id).reverse) ∧
    (∀ (store : StreamMap) (id : String) (st : Option Nat) (dir : String)
        (c : Nat),
        EventStore.getStream store id
            { startingFromSeqNum := st, direction := dir,
              maxCount := some c } =
          (EventStore.getStream store id
            { startingFromSeqNum := st, direction := dir }).take c) ∧
    (∀ (store : StreamMap) (id : String) (opts : GetStreamOptions),
        alGet store id = none → EventStore.getStream store id opts = []) ∧
    (∀ (store : StreamMap) (id : String),
        (EventStore.streamEvents store id).map Event.seqNum =
          List.range' 1 (EventStore.streamEvents store id).length →
        ∀ n : Nat,
          (EventStore.getStream store id
            { startingFromSeqNum := some n,
              direction := "forwards" }).Pairwise
            (fun a b => a.seqNum < b.seqNum) ∧
          (EventStore.getStream store id
            { direction := "forwards" }).Pairwise
            (fun a b => a.seqNum < b.seqNum) ∧
          (EventStore.getStream store id
            { startingFromSeqNum := some n,
              direction := "backwards" }).Pairwise
            (fun a b => b.seqNum < a.seqNum) ∧
          (EventStore.getStream store id
            { direction := "backwards" }).Pairwise
            (fun a b => b.seqNum < a.seqNum)) := by
  refine ⟨getStream_forwards_some, getStream_forwards_none,
          getStream_backwards_some, getStream_backwards_none,
          getStream_take, getStream_missing, ?_⟩
  intro store id hinv n
  have hs := streamEvents_sorted store id hinv
  refine ⟨?_, ?_, ?_, ?_⟩
  · rw [getStream_forwards_some]
    exact List.Pairwise.sublist (List.filter_sublist _) hs
  · rw [getStream_forwards_none]
    exact hs
  · rw [getStream_backwards_some]
    exact List.pairwise_reverse.mpr
      (List.Pairwise.sublist (List.filter_sublist _) hs)
  · rw [getStream_backwards_none]
    exact List.pairwise_reverse.mpr hs

/-- Witness for C7 on `witStore` (stream "s" with events 1..3): forwards
from 2, full forwards, backwards to 2, full backwards, `maxCount = 1`
truncation, empty result for the never-used "t", and the four ordering
facts. -/
theorem C7_getStream_semantics_witness :
    EventStore.getStream witStore "s"
        { startingFromSeqNum := some 2, direction := "forwards" } =
      (EventStore.streamEvents witStore "s").filter
        (fun e => 2 ≤ e.seqNum) ∧
    EventStore.getStream witStore "s" { direction := "forwards" } =
      EventStore.streamEvents witStore "s" ∧
    EventStore.getStream witStore "s"
        { startingFromSeqNum := some 2, direction := "backwards" } =
      ((EventStore.streamEvents witStore "s").filter
        (fun e => e.seqNum ≤ 2)).reverse ∧
    EventStore.getStream witStore "s" { direction := "backwards" } =
      (EventStore.streamEvents witStore "s").reverse ∧
    EventStore.getStream witStore "s"
        { startingFromSeqNum := some 2, direction := "backwards",
          maxCount := some 1 } =
      (EventStore.getStream witStore "s"
        { startingFromSeqNum := some 2, direction := "backwards" }).take 1 ∧
    EventStore.getStream witStore "t" {} = [] ∧
    (EventStore.getStream witStore "s"
        { startingFromSeqNum := some 2, direction := "forwards" }).Pairwise
      (fun a b => a.seqNum < b.seqNum) ∧
    (EventStore.getStream witStore "s"
        { startingFromSeqNum := some 2, direction := "backwards" }).Pairwise
      (fun a b => b.seqNum < a.seqNum) :=
  ⟨C7_getStream_semantics.1 witStore "s" 2,
   C7_getStream_semantics.2.1 witStore "s",
   C7_getStream_semantics.2.2.1 witStore "s" 2,
   C7_getStream_semantics.2.2.2.1 witStore "s",
   C7_getStream_semantics.2.2.2.2.1 witStore "s" (some 2) "backwards" 1,
   C7_getStream_semantics.2.2.2.2.2.1 witStore "t" {} (by decide),
   (C7_getStream_semantics.2.2.2.2.2.2 witStore "s" (by decide) 2).1,
   (C7_getStream_semantics.2.2.2.2.2.2 witStore "s" (by decide) 2).2.2.1⟩
